import Mathlib

/-!
# Verification of the macro-tracker computational core (`src/app.py`)

A shallow embedding, in Lean 4, of the computational slice of the
Streamlit application `src/app.py`:

* the watchlist add operation (lines 17-22),
* the earnings-date resolver `safe_earnings_date` (lines 54-68),
* the earnings table and 7-day earnings alert (lines 70-80, 100-108),
* the hard-coded macro calendar and 48-hour macro alert (lines 40-48, 84-98),
* the sector-tag exposure computation (lines 114-154).

Conventions of the embedding:

* Timestamps are modelled as `Int` seconds, calendar dates as `Int` days.
  The Python code compares `hours_until = (date - now) / 1 hour` against
  `0` and `48`; since division by a positive constant preserves the order,
  the conditions are embedded as `0 ≤ date - now` and `date - now ≤ 48*3600`
  on integer seconds.
* Python exceptions that escape a computation are modelled by `Option`
  (`none` = the computation raises) or by an explicit `fault` constructor.
* `pandas` sorts (`sort_values`) are modelled with Mathlib's
  `List.insertionSort`; pandas' default sort kind does not guarantee
  stability, so any sort of the given key order is a faithful model.
* Python string comparison (used by the `ticker` sort key) is code-point
  lexicographic, which is exactly Lean's `String` order.  The code sorts
  on the ISO-format date *string*; ISO strings compare chronologically, so
  the key is embedded as the underlying `Int` day number.
-/

/-! ## Watchlist add (`src/app.py` lines 17-22)

```python
new_ticker = st.text_input("Add a ticker (e.g., NVDA)").strip().upper()
if col_add.button("Add") and new_ticker:
    if new_ticker not in st.session_state.watchlist:
        st.session_state.watchlist.append(new_ticker)
```

`addTicker wl raw` is the state of the watchlist after the Add button is
pressed with raw text `raw` in the input box.  Python's truthiness test
`and new_ticker` rejects exactly the empty string.  `.strip()` and
`.upper()` are embedded at the character level (`pyStrip`, `pyUpper`);
on ASCII input — ticker symbols — they agree with Python's Unicode-aware
versions. -/

def pyUpper (s : String) : String := String.mk (s.data.map Char.toUpper)

def pyStrip (s : String) : String :=
  String.mk ((s.data.dropWhile Char.isWhitespace).reverse.dropWhile Char.isWhitespace).reverse

def addTicker (wl : List String) (raw : String) : List String :=
  if pyUpper (pyStrip raw) = "" then wl
  else if pyUpper (pyStrip raw) ∈ wl then wl
  else wl ++ [pyUpper (pyStrip raw)]

/-! ## Earnings-date resolver (`src/app.py` lines 54-68)

```python
def safe_earnings_date(ticker: str):
    try:
        t = yf.Ticker(ticker)
        cal = t.calendar  # can be empty / inconsistent
        if isinstance(cal, pd.DataFrame) and not cal.empty:
            if "Earnings Date" in cal.index:
                val = cal.loc["Earnings Date"].values[0]
                if isinstance(val, (list, tuple)) and len(val) > 0:
                    val = val[0]
                return pd.to_datetime(val)
    except Exception:
        return None
    return None
```

The upstream source (`yfinance`) is an external collaborator; what the
function observes of it is one of four outcomes, each an `UpstreamCal`
constructor.  `failure` covers any exception raised while fetching or
parsing (including a `pd.to_datetime` that cannot parse the value);
`missing` covers a calendar that is absent, empty, not a DataFrame, or
lacks an "Earnings Date" row; `single` is a scalar date value; `multiple`
is a non-empty list/tuple of candidate dates in the order the source
returned them. -/

inductive UpstreamCal where
  | failure
  | missing
  | single (d : Int)
  | multiple (d : Int) (ds : List Int)
deriving DecidableEq, Repr

def safe_earnings_date : UpstreamCal → Option Int
  | .failure => none
  | .missing => none
  | .single d => some d
  | .multiple d _ => some d

/-! ## Macro calendar and 48-hour macro alert (`src/app.py` lines 40-48, 84-98)

```python
macro_events = [
    {"date": today + timedelta(days=1), "event": "CPI (Inflation) release", ...},
    {"date": today + timedelta(days=7), "event": "FOMC / Fed decision", ...},
    {"date": today + timedelta(days=14), "event": "Jobs report (NFP)", ...},
]
macro_df = pd.DataFrame(macro_events).sort_values("date")
...
macro_df_alert["hours_until"] = (macro_df_alert["date"] - pd.Timestamp(now)) / pd.Timedelta(hours=1)
soon_macro = macro_df_alert[(macro_df_alert["hours_until"] >= 0) & (macro_df_alert["hours_until"] <= 48)]
if len(soon_macro) > 0:
    top = soon_macro.iloc[0]
```
-/

structure MacroEvent where
  date : Int
  event : String
  why : String
deriving DecidableEq, Repr

/-- The sort key of `macro_df.sort_values("date")`. -/
def dateLE (a b : MacroEvent) : Prop := a.date ≤ b.date

instance : DecidableRel dateLE := fun a b => inferInstanceAs (Decidable (a.date ≤ b.date))

instance : IsTotal MacroEvent dateLE := ⟨fun a b => Int.le_total a.date b.date⟩

instance : IsTrans MacroEvent dateLE := ⟨fun _ _ _ h h' => Int.le_trans h h'⟩

/-- The row filter of `soon_macro`, generalised over the horizon (the code
uses `horizon = 48` hours, i.e. `172800` seconds). -/
def macroWindow (now horizon : Int) (e : MacroEvent) : Bool :=
  decide (0 ≤ e.date - now) && decide (e.date - now ≤ horizon)

/-- `eventsWithin events now horizon`: the rows of the date-sorted macro
frame whose `hours_until` lies in `[0, horizon]`, in frame order. -/
def eventsWithin (events : List MacroEvent) (now horizon : Int) : List MacroEvent :=
  (List.insertionSort dateLE events).filter (macroWindow now horizon)

def soonMacro (events : List MacroEvent) (now : Int) : List MacroEvent :=
  eventsWithin events now 172800

/-- The macro alert: `some top` (the first row of `soon_macro`) renders the
"Macro in the next 48 hours" banner, `none` the "Clear macro window" one. -/
def macroAlert (events : List MacroEvent) (now : Int) : Option MacroEvent :=
  (soonMacro events now).head?

/-- The hard-coded calendar, with `m` the midnight timestamp of `today`
in seconds (one day = 86400 s). -/
def macro_events (m : Int) : List MacroEvent :=
  [⟨m + 86400, "CPI (Inflation) release",
     "Can move rates & growth stocks; affects valuations."⟩,
   ⟨m + 604800, "FOMC / Fed decision",
     "Rate path + forward guidance; big driver of market regime."⟩,
   ⟨m + 1209600, "Jobs report (NFP)",
     "Labor tightness → inflation pressure → rate expectations."⟩]

/-! ## Earnings table and 7-day earnings alert (`src/app.py` lines 70-80, 100-108)

```python
rows = []
for tic in st.session_state.watchlist:
    ed = safe_earnings_date(tic)
    rows.append({"ticker": tic,
                 "earnings_date": ed.date().isoformat() if ed is not None else None,
                 "days_until": (ed.date() - today).days if ed is not None else None})
earn_df = pd.DataFrame(rows).sort_values(["earnings_date", "ticker"], na_position="last")
...
earn_df_alert = earn_df.dropna(subset=["days_until"]).copy()
soon_earn_7d = earn_df_alert[(earn_df_alert["days_until"] >= 0) & (earn_df_alert["days_until"] <= 7)]
if len(soon_earn_7d) > 0:
    tickers = ", ".join(soon_earn_7d["ticker"].tolist())
```

Dates are `Int` day numbers; a row's `earnings_date`/`days_until` are `none`
exactly when the resolver returned `None`.  When the watchlist (and hence
`rows`) is empty, `pd.DataFrame([])` is a frame with *no columns*, so
`sort_values(["earnings_date", "ticker"], ...)` raises `KeyError`: that
fault is the `none` of `earnSorted` / the `fault` of `EarningsAlert`. -/

structure EarnRow where
  ticker : String
  edate : Option Int
deriving DecidableEq, Repr

def buildRows (wl : List String) (resolve : String → Option Int) : List EarnRow :=
  wl.map (fun tic => ⟨tic, resolve tic⟩)

def daysUntil (today : Int) (r : EarnRow) : Option Int :=
  r.edate.map (fun d => d - today)

/-- Strict order on the `earnings_date` column, `na_position="last"`:
a missing date sorts after every present one. -/
def edateLT : Option Int → Option Int → Prop
  | some x, some y => x < y
  | some _, none => True
  | none, _ => False

instance : ∀ a b, Decidable (edateLT a b)
  | some x, some y => inferInstanceAs (Decidable (x < y))
  | some _, none => inferInstanceAs (Decidable True)
  | none, some _ => inferInstanceAs (Decidable False)
  | none, none => inferInstanceAs (Decidable False)

/-- The lexicographic key of `sort_values(["earnings_date", "ticker"])`:
by earnings date (missing last), ties by ticker symbol. -/
def rowLE (a b : EarnRow) : Prop :=
  edateLT a.edate b.edate ∨ (a.edate = b.edate ∧ a.ticker ≤ b.ticker)

instance : DecidableRel rowLE := fun _a _b =>
  inferInstanceAs (Decidable (_ ∨ _))

instance : IsTotal EarnRow rowLE where
  total a b := by
    rcases ha : a.edate with _ | x <;> rcases hb : b.edate with _ | y
    · rcases le_total a.ticker b.ticker with h | h
      · exact Or.inl (Or.inr ⟨by rw [ha, hb], h⟩)
      · exact Or.inr (Or.inr ⟨by rw [ha, hb], h⟩)
    · exact Or.inr (Or.inl (by rw [ha, hb]; trivial))
    · exact Or.inl (Or.inl (by rw [ha, hb]; trivial))
    · rcases lt_trichotomy x y with h | h | h
      · exact Or.inl (Or.inl (by rw [ha, hb]; exact h))
      · subst h
        rcases le_total a.ticker b.ticker with h | h
        · exact Or.inl (Or.inr ⟨by rw [ha, hb], h⟩)
        · exact Or.inr (Or.inr ⟨by rw [ha, hb], h⟩)
      · exact Or.inr (Or.inl (by rw [ha, hb]; exact h))

theorem edateLT_trans {a b c : Option Int} (h : edateLT a b) (h' : edateLT b c) :
    edateLT a c := by
  rcases a with _ | x <;> rcases b with _ | y <;> rcases c with _ | z <;>
    simp only [edateLT] at * <;> omega

instance : IsTrans EarnRow rowLE where
  trans a b c h h' := by
    rcases h with h | ⟨he, ht⟩
    · rcases h' with h' | ⟨he', _⟩
      · exact Or.inl (edateLT_trans h h')
      · exact Or.inl (he' ▸ h)
    · rcases h' with h' | ⟨he', ht'⟩
      · exact Or.inl (he ▸ h')
      · exact Or.inr ⟨he.trans he', le_trans ht ht'⟩

/-- `earn_df`: the sorted earnings table, or `none` when building it
raises (empty `rows` means the frame has no `earnings_date` column and
`sort_values` raises `KeyError`). -/
def earnSorted (rows : List EarnRow) : Option (List EarnRow) :=
  if rows = [] then none
  else some (List.insertionSort rowLE rows)

inductive EarningsAlert where
  | upcoming (tickers : List String)
  | quiet
  | fault
deriving DecidableEq, Repr

/-- `earn_df_alert = earn_df.dropna(subset=["days_until"])`. -/
def earn_df_alert (today : Int) (sorted : List EarnRow) : List EarnRow :=
  sorted.filter (fun r => (daysUntil today r).isSome)

/-- `soon_earn_7d`: the rows of `earn_df_alert` with `0 <= days_until <= 7`. -/
def soon_earn_7d (today : Int) (sorted : List EarnRow) : List EarnRow :=
  (earn_df_alert today sorted).filter
    (fun r => decide (0 ≤ (daysUntil today r).getD 0) &&
              decide ((daysUntil today r).getD 0 ≤ 7))

/-- The two `dropna`/window filters compose into a single row predicate:
the row has a date and it lies within 7 days. -/
def earnWindow (today : Int) (r : EarnRow) : Bool :=
  match daysUntil today r with
  | none => false
  | some du => decide (0 ≤ du) && decide (du ≤ 7)

/-- The earnings alert of lines 100-108: `upcoming ts` renders the
"Earnings in the next 7 days" banner over tickers `ts` (frame order),
`quiet` the "No watchlist earnings" note, `fault` the `KeyError` raised
on an empty watchlist. -/
def earningsAlert (wl : List String) (resolve : String → Option Int)
    (today : Int) : EarningsAlert :=
  match earnSorted (buildRows wl resolve) with
  | none => .fault
  | some sorted =>
      if (soon_earn_7d today sorted).length > 0
      then .upcoming ((soon_earn_7d today sorted).map (·.ticker))
      else .quiet

/-! ## Exposure engine (`src/app.py` lines 114-154)

```python
sector_to_tags = { "Technology": ["rate-sensitive", "growth"], ... }

ex_rows = []
for tic in st.session_state.watchlist:
    sector = get_sector(tic)
    tags = sector_to_tags.get(sector, ["unknown"]) if sector else ["unknown"]
    ex_rows.append({"ticker": tic, "sector": sector, "tags": ", ".join(tags)})
ex_df = pd.DataFrame(ex_rows)

all_tags = []
for t in ex_df["tags"].fillna("unknown"):
    all_tags.extend([x.strip() for x in t.split(",")])
tag_counts = pd.Series(all_tags).value_counts()
top_tag = tag_counts.index[0] if len(tag_counts) else "unknown"
top_share = (tag_counts.iloc[0] / max(len(st.session_state.watchlist), 1)) if len(tag_counts) else 0
```

Modelling notes:

* Each tag list is joined with `", "` into the `tags` cell and split back
  on `","` (stripping) to build `all_tags`; since no tag contains a comma
  the round-trip is the identity, so the embedding carries the tag lists
  directly.  The `fillna` is a no-op: the cell is always a joined string.
* `sector_to_tags.get(sector, ["unknown"]) if sector else ["unknown"]`:
  Python truthiness makes both `None` and the empty string fall to
  `["unknown"]`; a sector absent from the dict falls to the `.get` default.
* `pd.Series(all_tags).value_counts()` yields, for each distinct value,
  its occurrence count, ordered by count descending; the order among
  equal counts is implementation-dependent in pandas, pinned here to
  first-occurrence order (a stable descending sort over the distinct
  values in order of first appearance).
* On an empty watchlist `ex_df = pd.DataFrame([])` has no columns and
  `ex_df["tags"]` raises `KeyError`, so `computeExposure` is `none` there.
-/

def sector_to_tags : List (String × List String) :=
  [("Technology", ["rate-sensitive", "growth"]),
   ("Communication Services", ["rate-sensitive", "growth"]),
   ("Consumer Discretionary", ["cyclical", "rate-sensitive"]),
   ("Financial Services", ["rate-sensitive", "macro-sensitive"]),
   ("Real Estate", ["rate-sensitive"]),
   ("Utilities", ["defensive", "rate-sensitive"]),
   ("Consumer Staples", ["defensive", "inflation-sensitive"]),
   ("Health Care", ["defensive"]),
   ("Industrials", ["cyclical"]),
   ("Energy", ["inflation-sensitive", "commodities"]),
   ("Basic Materials", ["inflation-sensitive", "commodities"])]

/-- `sector_to_tags.get(sector, ["unknown"]) if sector else ["unknown"]`. -/
def tagsFor (sector : Option String) : List String :=
  match sector with
  | none => ["unknown"]
  | some s =>
      if s = "" then ["unknown"]
      else ((sector_to_tags.find? (fun p => p.1 = s)).map (·.2)).getD ["unknown"]

/-- `all_tags`: the per-ticker tag lists flattened across the watchlist. -/
def allTags (wl : List String) (getSector : String → Option String) : List String :=
  wl.flatMap (fun tic => tagsFor (getSector tic))

/-- The distinct values of a list in order of first appearance (the index
of `pd.Series(l).value_counts()` before sorting by count). -/
def firstOccs (l : List String) : List String :=
  l.foldl (fun acc x => if x ∈ acc then acc else acc ++ [x]) []

/-- Descending order on counts, the sort key of `value_counts()`. -/
def countGE (p q : String × Nat) : Prop := q.2 ≤ p.2

instance : DecidableRel countGE := fun p q => inferInstanceAs (Decidable (q.2 ≤ p.2))

instance : IsTotal (String × Nat) countGE := ⟨fun p q => Nat.le_total q.2 p.2⟩

instance : IsTrans (String × Nat) countGE := ⟨fun _ _ _ h h' => Nat.le_trans h' h⟩

/-- `tag_counts`: each distinct tag with its occurrence count, ordered by
count descending (ties pinned to first-occurrence order). -/
def tagCounts (l : List String) : List (String × Nat) :=
  List.insertionSort countGE ((firstOccs l).map (fun t => (t, l.count t)))

structure ExposureSummary where
  tag_counts : List (String × Nat)
  dominant_tag : String
  dominant_share : ℚ
deriving DecidableEq, Repr

/-- Lines 136-154 as one function of the watchlist and the sector lookup;
`none` models the `KeyError` raised on an empty watchlist. -/
def computeExposure (wl : List String) (getSector : String → Option String) :
    Option ExposureSummary :=
  if wl = [] then none
  else
    some
      { tag_counts := tagCounts (allTags wl getSector)
        dominant_tag :=
          match tagCounts (allTags wl getSector) with
          | [] => "unknown"
          | p :: _ => p.1
        dominant_share :=
          match tagCounts (allTags wl getSector) with
          | [] => 0
          | p :: _ => (p.2 : ℚ) / ((max wl.length 1 : ℕ) : ℚ) }

/-! # Theorems -/

/-! ## Watchlist claims -/

/-- **C6.** For every ticker `t` and every watchlist, adding `t` twice yields
the same watchlist as adding `t` once (add is idempotent), and the stored
symbol is case-normalized to uppercase with surrounding whitespace
stripped (the watchlist grows, if at all, by exactly the normalised
symbol). -/
theorem c6_add_idempotent (wl : List String) (raw : String) :
    addTicker (addTicker wl raw) raw = addTicker wl raw ∧
    (addTicker wl raw = wl ∨ addTicker wl raw = wl ++ [pyUpper (pyStrip raw)]) := by
  by_cases h1 : pyUpper (pyStrip raw) = ""
  · simp [addTicker, h1]
  · by_cases h2 : pyUpper (pyStrip raw) ∈ wl
    · simp [addTicker, h1, h2]
    · have hmem : pyUpper (pyStrip raw) ∈ wl ++ [pyUpper (pyStrip raw)] := by simp
      simp [addTicker, h1, h2, hmem]

/-- **C9.** Attempting to add an empty-string ticker, or a ticker whose
normalised form is already present, is a no-op on the watchlist (the add
operation is total: no error is raised). -/
theorem c9_add_noop (wl : List String) (raw : String)
    (hmem : pyUpper (pyStrip raw) ∈ wl) :
    addTicker wl "" = wl ∧ addTicker wl raw = wl := by
  constructor
  · have h : pyUpper (pyStrip "") = "" := rfl
    simp [addTicker, h]
  · by_cases h1 : pyUpper (pyStrip raw) = ""
    · simp [addTicker, h1]
    · simp [addTicker, h1, hmem]

/-- Witness for `c9_add_noop` at `wl = ["AAPL"]`, `raw = " aapl "`. -/
theorem c9_add_noop_witness :
    pyUpper (pyStrip " aapl ") ∈ ["AAPL"] ∧
    addTicker ["AAPL"] "" = ["AAPL"] ∧ addTicker ["AAPL"] " aapl " = ["AAPL"] :=
  ⟨by decide, c9_add_noop ["AAPL"] " aapl " (by decide)⟩

/-! ## Resolver claims -/

/-- **C5 (counterexample).** The resolver does not reduce multiple
candidate dates to the *earliest* one: when the upstream source returns
the candidates `[5, 3]` (day numbers), the earliest is `3`, but the code
takes `val[0]` and returns `5`. -/
theorem c5_resolver_counterexample :
    safe_earnings_date (.multiple 5 [3]) = some 5 ∧
    safe_earnings_date (.multiple 5 [3]) ≠ some 3 :=
  ⟨rfl, by decide⟩

/-- **C5 (amended).** For every ticker, the earnings-date resolver turns any
transport or parsing failure of the upstream source into an empty (`None`)
result and never propagates an exception (it is a total function of the
upstream outcome), and when the upstream source returns multiple candidate
dates it reduces them to the *first* one in the order returned — which is
the earliest only when the source lists them in ascending order. -/
theorem c5_resolver_amended :
    safe_earnings_date .failure = none ∧
    safe_earnings_date .missing = none ∧
    (∀ d, safe_earnings_date (.single d) = some d) ∧
    (∀ d ds, safe_earnings_date (.multiple d ds) = some d) ∧
    (∀ d ds, (∀ x ∈ ds, d ≤ x) →
      safe_earnings_date (.multiple d ds) = some ((ds.foldl min d)) ) := by
  refine ⟨rfl, rfl, fun _ => rfl, fun _ _ => rfl, fun d ds h => ?_⟩
  have : ds.foldl min d = d := by
    induction ds generalizing d with
    | nil => rfl
    | cons x xs ih =>
        have hdx : min d x = d := min_eq_left (h x (List.mem_cons_self ..))
        simp only [List.foldl_cons, hdx]
        exact ih d (fun y hy => h y (List.mem_cons_of_mem _ hy))
  rw [this]
  rfl

/-- Witness for `c5_resolver_amended` (the sorted-candidates clause) at
`d = 2`, `ds = [4, 6]`. -/
theorem c5_resolver_amended_witness :
    (∀ x ∈ ([4, 6] : List Int), (2 : Int) ≤ x) ∧
    safe_earnings_date (.multiple 2 [4, 6]) = some (([4, 6] : List Int).foldl min 2) :=
  ⟨by decide, (c5_resolver_amended.2.2.2.2) 2 [4, 6] (by decide)⟩

/-! ## Empty-watchlist fault (C2) -/

/-- **C2.** The claim says an empty watchlist evaluates without fault
(earnings alert `none`, dominant tag `"unknown"`, share `0`).  The code
instead raises: with `rows = []`, `pd.DataFrame([])` has no columns, so
`sort_values(["earnings_date", "ticker"], ...)` raises `KeyError`
(line 79), and likewise `ex_df["tags"]` raises `KeyError` (line 148)
before the guarded `"unknown"` / `0` fallbacks of lines 153-154 are ever
reached.  In the embedding: the earnings alert is `fault` and the exposure
computation is `none` for the empty watchlist, for every resolver, sector
lookup and date. -/
theorem c2_empty_watchlist_faults :
    (∀ (resolve : String → Option Int) (today : Int),
      earningsAlert [] resolve today = .fault) ∧
    (∀ getSector : String → Option String, computeExposure [] getSector = none) :=
  ⟨fun _ _ => rfl, fun _ => rfl⟩

/-! ## Macro calendar claims -/

/-- **C7.** `eventsWithin` is monotonic in the horizon: for `h1 ≤ h2` and a
fixed `now`, every event returned for horizon `h1` is returned for
horizon `h2`. -/
theorem c7_eventsWithin_monotone (events : List MacroEvent) (now h1 h2 : Int)
    (hle : h1 ≤ h2) :
    ∀ e ∈ eventsWithin events now h1, e ∈ eventsWithin events now h2 := by
  intro e he
  rw [eventsWithin, List.mem_filter] at he ⊢
  refine ⟨he.1, ?_⟩
  have hw := he.2
  simp only [macroWindow, Bool.and_eq_true, decide_eq_true_eq] at hw ⊢
  omega

/-- Witness for `c7_eventsWithin_monotone` at a one-event calendar,
`now = 0`, `h1 = 3600`, `h2 = 172800`. -/
theorem c7_eventsWithin_monotone_witness :
    (⟨100, "E", "W"⟩ : MacroEvent) ∈ eventsWithin [⟨100, "E", "W"⟩] 0 172800 :=
  c7_eventsWithin_monotone [⟨100, "E", "W"⟩] 0 3600 172800 (by norm_num)
    ⟨100, "E", "W"⟩ (by decide)

/-- Every event of the date-sorted, window-filtered frame is an original
event inside the window, and conversely. -/
theorem mem_soonMacro {events : List MacroEvent} {now : Int} {e : MacroEvent} :
    e ∈ soonMacro events now ↔
      e ∈ events ∧ 0 ≤ e.date - now ∧ e.date - now ≤ 172800 := by
  rw [soonMacro, eventsWithin, List.mem_filter, List.mem_insertionSort]
  simp only [macroWindow, Bool.and_eq_true, decide_eq_true_eq]

/-- `soon_macro` is sorted ascending by date. -/
theorem soonMacro_sorted (events : List MacroEvent) (now : Int) :
    (soonMacro events now).Sorted dateLE :=
  (List.sorted_insertionSort dateLE events).filter _

/-- **C3.** The macro alert is imminent (`some`) iff some event satisfies
`0 ≤ date - now ≤ 48` hours, both bounds inclusive; when imminent, the
surfaced event (the first row of `soon_macro`) is such an event of
minimal date; otherwise the alert is clear (`none`). -/
theorem c3_macro_alert (events : List MacroEvent) (now : Int) :
    ((macroAlert events now).isSome ↔
      ∃ e ∈ events, 0 ≤ e.date - now ∧ e.date - now ≤ 172800) ∧
    (∀ e, macroAlert events now = some e →
      e ∈ events ∧ (0 ≤ e.date - now ∧ e.date - now ≤ 172800) ∧
        ∀ e' ∈ events, 0 ≤ e'.date - now ∧ e'.date - now ≤ 172800 →
          e.date ≤ e'.date) := by
  constructor
  · rw [macroAlert]
    cases hs : soonMacro events now with
    | nil =>
        simp only [List.head?_nil, Option.isSome_none, Bool.false_eq_true, false_iff]
        rintro ⟨e, he, hw⟩
        have : e ∈ soonMacro events now := mem_soonMacro.mpr ⟨he, hw⟩
        rw [hs] at this
        exact absurd this (List.not_mem_nil e)
    | cons a l =>
        simp only [List.head?_cons, Option.isSome_some, true_iff]
        have : a ∈ soonMacro events now := by rw [hs]; exact List.mem_cons_self ..
        exact ⟨a, (mem_soonMacro.mp this).1, (mem_soonMacro.mp this).2⟩
  · intro e hae
    rw [macroAlert] at hae
    rcases hs : soonMacro events now with _ | ⟨a, l⟩
    · rw [hs] at hae; exact absurd hae (by simp)
    · rw [hs] at hae
      simp only [List.head?_cons, Option.some.injEq] at hae
      subst hae
      have hmem : a ∈ soonMacro events now := by
        rw [hs]; exact List.mem_cons_self ..
      refine ⟨(mem_soonMacro.mp hmem).1, (mem_soonMacro.mp hmem).2, ?_⟩
      intro e' he' hw'
      have hmem' : e' ∈ soonMacro events now := mem_soonMacro.mpr ⟨he', hw'⟩
      rw [hs] at hmem'
      have hsorted := soonMacro_sorted events now
      rw [hs, List.sorted_cons] at hsorted
      rcases List.mem_cons.mp hmem' with h | h
      · rw [h]
      · exact hsorted.1 e' h

/-- Witness for `c3_macro_alert` (the surfaced-event clause) at a
two-event calendar with `now = 0`. -/
theorem c3_macro_alert_witness :
    macroAlert [⟨500, "B", "W"⟩, ⟨100, "A", "V"⟩] 0 = some ⟨100, "A", "V"⟩ ∧
    ((⟨100, "A", "V"⟩ : MacroEvent) ∈ [⟨500, "B", "W"⟩, ⟨100, "A", "V"⟩] ∧
      (0 ≤ (100 : Int) - 0 ∧ (100 : Int) - 0 ≤ 172800) ∧
      ∀ e' ∈ [(⟨500, "B", "W"⟩ : MacroEvent), ⟨100, "A", "V"⟩],
        0 ≤ e'.date - 0 ∧ e'.date - 0 ≤ 172800 → (100 : Int) ≤ e'.date) :=
  ⟨by decide,
   (c3_macro_alert [⟨500, "B", "W"⟩, ⟨100, "A", "V"⟩] 0).2 ⟨100, "A", "V"⟩ (by decide)⟩

/-- **C10.** With the hard-coded calendar (events at `today + 1`,
`today + 7`, `today + 14` days) and any current time `now` falling on
`today` (i.e. `m ≤ now < m + 86400` where `m` is `today`'s midnight),
`soon_macro` is exactly the CPI event, so the macro alert is always
imminent with "CPI (Inflation) release" surfaced; the clear-macro-window
branch (`soon_macro` empty) is unreachable. -/
theorem c10_cpi_always_imminent (m now : Int) (hlo : m ≤ now)
    (hhi : now < m + 86400) :
    soonMacro (macro_events m) now =
      [⟨m + 86400, "CPI (Inflation) release",
        "Can move rates & growth stocks; affects valuations."⟩] ∧
    macroAlert (macro_events m) now =
      some ⟨m + 86400, "CPI (Inflation) release",
        "Can move rates & growth stocks; affects valuations."⟩ := by
  have hsorted : (macro_events m).Sorted dateLE := by
    unfold macro_events
    apply List.Pairwise.cons
    · intro b hb
      simp only [List.mem_cons, List.not_mem_nil, or_false] at hb
      rcases hb with rfl | rfl <;> (simp only [dateLE]; omega)
    · apply List.Pairwise.cons
      · intro b hb
        simp only [List.mem_cons, List.not_mem_nil, or_false] at hb
        subst hb
        simp only [dateLE]; omega
      · exact List.pairwise_singleton _ _
  have hs : soonMacro (macro_events m) now =
      (macro_events m).filter (macroWindow now 172800) := by
    rw [soonMacro, eventsWithin, hsorted.insertionSort_eq]
  have hcpi : macroWindow now 172800
      ⟨m + 86400, "CPI (Inflation) release",
        "Can move rates & growth stocks; affects valuations."⟩ = true := by
    simp only [macroWindow, Bool.and_eq_true, decide_eq_true_eq]
    omega
  have hfomc : macroWindow now 172800
      ⟨m + 604800, "FOMC / Fed decision",
        "Rate path + forward guidance; big driver of market regime."⟩ = false := by
    simp only [macroWindow, Bool.and_eq_false_iff, decide_eq_false_iff_not]
    right; omega
  have hnfp : macroWindow now 172800
      ⟨m + 1209600, "Jobs report (NFP)",
        "Labor tightness → inflation pressure → rate expectations."⟩ = false := by
    simp only [macroWindow, Bool.and_eq_false_iff, decide_eq_false_iff_not]
    right; omega
  have hfin : soonMacro (macro_events m) now =
      [⟨m + 86400, "CPI (Inflation) release",
        "Can move rates & growth stocks; affects valuations."⟩] := by
    rw [hs]
    simp [macro_events, List.filter_cons, hcpi, hfomc, hnfp]
  exact ⟨hfin, by rw [macroAlert, hfin]; rfl⟩

/-- Witness for `c10_cpi_always_imminent` at `m = 0`, `now = 43200` (noon). -/
theorem c10_cpi_always_imminent_witness :
    ((0 : Int) ≤ 43200 ∧ (43200 : Int) < 0 + 86400) ∧
    (soonMacro (macro_events 0) 43200 =
      [⟨0 + 86400, "CPI (Inflation) release",
        "Can move rates & growth stocks; affects valuations."⟩] ∧
    macroAlert (macro_events 0) 43200 =
      some ⟨0 + 86400, "CPI (Inflation) release",
        "Can move rates & growth stocks; affects valuations."⟩) :=
  ⟨by norm_num, c10_cpi_always_imminent 0 43200 (by norm_num) (by norm_num)⟩

/-! ## Earnings alert claim (C4) -/

/-- The `dropna` and window filters compose into `earnWindow`. -/
theorem soon_earn_7d_eq_filter (today : Int) (l : List EarnRow) :
    soon_earn_7d today l = l.filter (earnWindow today) := by
  rw [soon_earn_7d, earn_df_alert, List.filter_filter]
  apply List.filter_congr
  intro r _
  cases h : r.edate with
  | none => simp [daysUntil, h, earnWindow]
  | some d => simp [daysUntil, h, earnWindow]

/-- **C4.** The claim fails only on the empty record set, where the code
raises `KeyError` instead of reporting `none` (first conjunct).  For every
non-empty set of earnings records the claim holds: the earnings alert is
`upcoming` iff some record has a present earnings date with
`0 ≤ earnings_date - today ≤ 7` days; the surfaced ticker list is exactly
the tickers of the qualifying records, in an order sorted by earnings
date then ticker symbol ascending (`rowLE`); records with absent dates are
never surfaced. -/
theorem c4_earnings_alert :
    (∀ (resolve : String → Option Int) (today : Int),
      earningsAlert [] resolve today = .fault) ∧
    (∀ (wl : List String) (resolve : String → Option Int) (today : Int),
      wl ≠ [] →
      ∃ rs : List EarnRow,
        earningsAlert wl resolve today =
          (if rs = [] then .quiet else .upcoming (rs.map (·.ticker))) ∧
        rs.Perm ((buildRows wl resolve).filter (earnWindow today)) ∧
        rs.Sorted rowLE ∧
        (∀ r ∈ rs, r.edate ≠ none)) := by
  constructor
  · intro resolve today; rfl
  · intro wl resolve today hwl
    have hrows : buildRows wl resolve ≠ [] := by
      simpa [buildRows] using hwl
    have hes : earnSorted (buildRows wl resolve) =
        some (List.insertionSort rowLE (buildRows wl resolve)) := by
      rw [earnSorted, if_neg hrows]
    refine ⟨soon_earn_7d today (List.insertionSort rowLE (buildRows wl resolve)),
      ?_, ?_, ?_, ?_⟩
    · rw [earningsAlert, hes]
      by_cases hnil : soon_earn_7d today
          (List.insertionSort rowLE (buildRows wl resolve)) = []
      · simp [hnil]
      · simp only [if_neg hnil]
        rw [if_pos]
        exact List.length_pos.mpr hnil
    · rw [soon_earn_7d_eq_filter]
      exact (List.perm_insertionSort rowLE (buildRows wl resolve)).filter _
    · rw [soon_earn_7d_eq_filter]
      exact (List.sorted_insertionSort rowLE (buildRows wl resolve)).filter _
    · intro r hr
      rw [soon_earn_7d_eq_filter, List.mem_filter] at hr
      intro hnone
      have := hr.2
      rw [earnWindow] at this
      simp [daysUntil, hnone] at this

/-- Witness for `c4_earnings_alert` at watchlist `["NVDA", "XRAY"]` where
`"NVDA"` resolves to `today + 3` and `"XRAY"` to no date: the alert is
upcoming with exactly `["NVDA"]`. -/
theorem c4_earnings_alert_witness :
    (["NVDA", "XRAY"] : List String) ≠ [] ∧
    ∃ rs : List EarnRow,
      earningsAlert ["NVDA", "XRAY"]
          (fun t => if t = "NVDA" then some 3 else none) 0 =
        (if rs = [] then .quiet else .upcoming (rs.map (·.ticker))) ∧
      rs.Perm ((buildRows ["NVDA", "XRAY"]
          (fun t => if t = "NVDA" then some 3 else none)).filter (earnWindow 0)) ∧
      rs.Sorted rowLE ∧
      (∀ r ∈ rs, r.edate ≠ none) :=
  ⟨by decide,
   c4_earnings_alert.2 ["NVDA", "XRAY"]
     (fun t => if t = "NVDA" then some 3 else none) 0 (by decide)⟩

/-! ## Exposure claims (C1, C8) -/

/-- Every tag list in the static sector table is duplicate-free. -/
theorem sector_to_tags_nodup : ∀ p ∈ sector_to_tags, p.2.Nodup := by decide

/-- Every tag list in the static sector table is non-empty. -/
theorem sector_to_tags_ne_nil : ∀ p ∈ sector_to_tags, p.2 ≠ [] := by decide

/-- A ticker's tag list never contains a tag twice. -/
theorem tagsFor_nodup (s : Option String) : (tagsFor s).Nodup := by
  rcases s with _ | s
  · simp [tagsFor]
  · by_cases hs : s = ""
    · simp [tagsFor, hs]
    · cases hf : sector_to_tags.find? (fun p => p.1 = s) with
      | none => simp [tagsFor, hs, hf]
      | some p =>
          have := sector_to_tags_nodup p (List.mem_of_find?_eq_some hf)
          simpa [tagsFor, hs, hf] using this

/-- A ticker's tag list is never empty (it falls back to `["unknown"]`). -/
theorem tagsFor_ne_nil (s : Option String) : tagsFor s ≠ [] := by
  rcases s with _ | s
  · simp [tagsFor]
  · by_cases hs : s = ""
    · simp [tagsFor, hs]
    · cases hf : sector_to_tags.find? (fun p => p.1 = s) with
      | none => simp [tagsFor, hs, hf]
      | some p =>
          have := sector_to_tags_ne_nil p (List.mem_of_find?_eq_some hf)
          simpa [tagsFor, hs, hf] using this

/-- A single ticker contributes each tag at most once to `all_tags`. -/
theorem count_tagsFor_le_one (s : Option String) (t : String) :
    (tagsFor s).count t ≤ 1 :=
  List.nodup_iff_count_le_one.mp (tagsFor_nodup s) t

/-- No tag occurs in `all_tags` more often than the watchlist has tickers:
a ticker can push a given tag's count up only once. -/
theorem count_allTags_le (wl : List String) (f : String → Option String)
    (t : String) : (allTags wl f).count t ≤ wl.length := by
  induction wl with
  | nil => simp [allTags]
  | cons tic rest ih =>
      simp only [allTags, List.flatMap_cons, List.count_append] at *
      have h1 := count_tagsFor_le_one (f tic) t
      rw [List.length_cons]
      omega

/-- `all_tags` is non-empty whenever the watchlist is. -/
theorem allTags_ne_nil {wl : List String} (f : String → Option String)
    (h : wl ≠ []) : allTags wl f ≠ [] := by
  rcases List.exists_cons_of_ne_nil h with ⟨tic, rest, rfl⟩
  rw [allTags, List.flatMap_cons]
  intro heq
  exact tagsFor_ne_nil (f tic) (List.append_eq_nil.mp heq).1

/-- Elements accumulated by the `firstOccs` fold come from the
accumulator or the traversed list. -/
theorem mem_foldl_firstOccs (l : List String) (acc : List String) (x : String)
    (h : x ∈ l.foldl (fun acc x => if x ∈ acc then acc else acc ++ [x]) acc) :
    x ∈ acc ∨ x ∈ l := by
  induction l generalizing acc with
  | nil => exact Or.inl h
  | cons a t ih =>
      rw [List.foldl_cons] at h
      rcases ih _ h with h' | h'
      · by_cases ha : a ∈ acc
        · rw [if_pos ha] at h'
          exact Or.inl h'
        · rw [if_neg ha] at h'
          rcases List.mem_append.mp h' with h'' | h''
          · exact Or.inl h''
          · rw [List.mem_singleton] at h''
            subst h''
            exact Or.inr (List.mem_cons_self ..)
      · exact Or.inr (List.mem_cons_of_mem _ h')

/-- The `firstOccs` fold never shrinks a non-empty accumulator. -/
theorem foldl_firstOccs_ne_nil (l : List String) (acc : List String)
    (hacc : acc ≠ []) :
    l.foldl (fun acc x => if x ∈ acc then acc else acc ++ [x]) acc ≠ [] := by
  induction l generalizing acc with
  | nil => exact hacc
  | cons a t ih =>
      rw [List.foldl_cons]
      apply ih
      by_cases ha : a ∈ acc
      · rw [if_pos ha]; exact hacc
      · rw [if_neg ha]; simp

/-- The distinct values index only holds values of the series. -/
theorem mem_firstOccs {l : List String} {x : String} (h : x ∈ firstOccs l) :
    x ∈ l :=
  (mem_foldl_firstOccs l [] x h).resolve_left (List.not_mem_nil x)

/-- A non-empty series has a non-empty distinct-values index. -/
theorem firstOccs_ne_nil {l : List String} (h : l ≠ []) : firstOccs l ≠ [] := by
  rcases List.exists_cons_of_ne_nil h with ⟨a, t, rfl⟩
  rw [firstOccs, List.foldl_cons]
  apply foldl_firstOccs_ne_nil
  simp

/-- `value_counts` of a non-empty series is non-empty. -/
theorem tagCounts_ne_nil {l : List String} (h : l ≠ []) : tagCounts l ≠ [] := by
  rw [tagCounts]
  intro heq
  have hlen := congrArg List.length heq
  rw [List.length_insertionSort, List.length_map] at hlen
  exact firstOccs_ne_nil h (List.length_eq_zero.mp hlen)

/-- Every `value_counts` entry pairs a value of the series with its
occurrence count. -/
theorem mem_tagCounts {l : List String} {p : String × Nat}
    (h : p ∈ tagCounts l) : p.2 = l.count p.1 ∧ p.1 ∈ l := by
  rw [tagCounts, List.mem_insertionSort] at h
  rcases List.mem_map.mp h with ⟨t, ht, rfl⟩
  exact ⟨rfl, mem_firstOccs ht⟩

/-- **C1.** The claim fails only on the empty watchlist, where the exposure
computation raises `KeyError` instead of yielding share `0` (first
conjunct), so `dominant_share = 0` never actually occurs.  For every
non-empty watchlist and every sector lookup the rest of the claim holds:
the computation succeeds, `dominant_share` equals the dominant tag's
occurrence count divided by `max(len(watchlist), 1)`, and it lies in
`(0, 1]` — in particular in `[0, 1]`. -/
theorem c1_dominant_share :
    (∀ getSector : String → Option String, computeExposure [] getSector = none) ∧
    (∀ (wl : List String) (getSector : String → Option String), wl ≠ [] →
      ∃ s : ExposureSummary, computeExposure wl getSector = some s ∧
        s.dominant_share =
          ((allTags wl getSector).count s.dominant_tag : ℚ) /
            ((max wl.length 1 : ℕ) : ℚ) ∧
        0 < s.dominant_share ∧ s.dominant_share ≤ 1) := by
  constructor
  · intro getSector; rfl
  · intro wl f hwl
    have hat : allTags wl f ≠ [] := allTags_ne_nil f hwl
    have htc : tagCounts (allTags wl f) ≠ [] := tagCounts_ne_nil hat
    obtain ⟨p, rest, hp⟩ := List.exists_cons_of_ne_nil htc
    have hpmem : p ∈ tagCounts (allTags wl f) := by
      rw [hp]; exact List.mem_cons_self ..
    obtain ⟨hcount, hmem⟩ := mem_tagCounts hpmem
    have hden : (0 : ℚ) < ((max wl.length 1 : ℕ) : ℚ) := by
      have : (0 : ℕ) < max wl.length 1 :=
        Nat.lt_of_lt_of_le Nat.zero_lt_one (Nat.le_max_right wl.length 1)
      exact_mod_cast this
    refine ⟨{ tag_counts := tagCounts (allTags wl f)
              dominant_tag := p.1
              dominant_share := (p.2 : ℚ) / ((max wl.length 1 : ℕ) : ℚ) },
            ?_, ?_, ?_, ?_⟩
    · simp only [computeExposure, if_neg hwl, hp]
    · simp only
      rw [← hcount]
    · simp only
      apply div_pos _ hden
      have hpos : 0 < (allTags wl f).count p.1 := List.count_pos_iff.mpr hmem
      have : 0 < p.2 := by rw [hcount]; exact hpos
      exact_mod_cast this
    · simp only
      rw [div_le_one hden]
      have hle : p.2 ≤ max wl.length 1 := by
        rw [hcount]
        exact le_trans (count_allTags_le wl f p.1) (Nat.le_max_left wl.length 1)
      exact_mod_cast hle

/-- Witness for `c1_dominant_share` at `wl = ["AAPL"]` with a sector lookup
that always fails (every ticker tagged `"unknown"`). -/
theorem c1_dominant_share_witness :
    (["AAPL"] : List String) ≠ [] ∧
    ∃ s : ExposureSummary,
      computeExposure ["AAPL"] (fun _ => none) = some s ∧
      s.dominant_share =
        ((allTags ["AAPL"] (fun _ => none)).count s.dominant_tag : ℚ) /
          ((max (List.length ["AAPL"]) 1 : ℕ) : ℚ) ∧
      0 < s.dominant_share ∧ s.dominant_share ≤ 1 :=
  ⟨by decide, c1_dominant_share.2 ["AAPL"] (fun _ => none) (by decide)⟩

/-- The sector lookup of the C8 scenario: both watchlist tickers are
Technology. -/
def c8Sector : String → Option String :=
  fun t =>
    if t = "AAPL" then some "Technology"
    else if t = "MSFT" then some "Technology"
    else none

/-- **C8.** Scenario `["AAPL", "MSFT"]`, both Technology: the tag counts
are `rate-sensitive: 2` and `growth: 2`, the dominant share is `1`, and
the dominant tag is determined by the pinned deterministic tie-break
(highest count, ties in order of first appearance), yielding
`"rate-sensitive"`. -/
theorem c8_technology_scenario :
    computeExposure ["AAPL", "MSFT"] c8Sector =
      some { tag_counts := [("rate-sensitive", 2), ("growth", 2)]
             dominant_tag := "rate-sensitive"
             dominant_share := 1 } := by
  have h : tagCounts (allTags ["AAPL", "MSFT"] c8Sector) =
      [("rate-sensitive", 2), ("growth", 2)] := by decide
  have hne : ¬(["AAPL", "MSFT"] : List String) = [] := by decide
  simp only [computeExposure, if_neg hne, h]
  norm_num
